import Mathlib

/-!
Verification of the household-membership and invitation subsystem of the
philosophers-fridge application (src/main.py, src/models.py, src/auth.py,
src/database.py).

The relational store is embedded as a `State` of four tables, each a list of
rows kept in stored order (the order the database returns rows when no
ordering is requested; `first()` takes the head of that order).  Timestamps
are natural numbers (seconds); `expires_at` is `Option Nat` mirroring the
nullable column.  The store enforces exactly the constraints SQLite
enforces under src/database.py's configuration: primary keys and unique
columns — the composite primary key of `user_household_association` (at
most one row per (user_id, household_id)), the uniqueness of invitation
ids and invite codes.  An insert violating one of these makes the
enclosing request fail and persists nothing of the uncommitted mutations;
such branches appear below as `.err .internal`.  The FOREIGN KEY clauses
declared in src/models.py are NOT enforced: src/database.py creates a
plain SQLite engine and never issues `PRAGMA foreign_keys=ON`, so an
insert referencing a nonexistent household succeeds and leaves a dangling
row.

Two further fidelity points from src/database.py:
- Sessions are built with `autoflush=False`, so a query issued after
  `db.delete(...)` but before the commit still sees the row that is
  pending deletion.  `leave_household` below reflects this: the query that
  picks the membership to promote to primary runs over the association
  table *including* the row being removed.
- `add_member` performs no household-existence check of its own, so (with
  foreign keys unenforced) it can insert an association row for a
  household id that does not exist.
-/

inductive UserRole
  | admin
  | member
deriving DecidableEq, Repr

inductive InvitationStatus
  | pending
  | accepted
  | rejected
deriving DecidableEq, Repr

/-- A row of `users` (src/models.py `User`).  Credential, verification and
preference columns are collaborator glue (spec sections 1 and 6) and do not
influence the membership/invitation logic, so only the columns this
subsystem reads are kept. -/
structure User where
  id : Nat
  name : String
  email : String
  role : UserRole
deriving DecidableEq, Repr

/-- A row of `households` (src/models.py `Household`). -/
structure Household where
  id : Nat
  name : String
deriving DecidableEq, Repr

/-- A row of `user_household_association` (src/models.py
`UserHouseholdAssociation`). -/
structure Assoc where
  user_id : Nat
  household_id : Nat
  is_primary : Bool
deriving DecidableEq, Repr

/-- A row of `household_invitations` (src/models.py `HouseholdInvitation`). -/
structure Invitation where
  id : Nat
  email : String
  invite_code : String
  household_id : Nat
  expires_at : Option Nat
  status : InvitationStatus
deriving DecidableEq, Repr

/-- The relational store.  Food logs live in their own table and are
modelled separately for the food-log claims; no membership or invitation
operation reads them. -/
structure State where
  users : List User
  households : List Household
  assocs : List Assoc
  invitations : List Invitation
deriving DecidableEq, Repr

/-- Failure taxonomy of spec section 7.  `.internal` is the generic
internal error a database-constraint violation surfaces as. -/
inductive Err
  | notFound
  | conflict
  | forbidden
  | invalidState
  | expired
  | validation
  | internal
deriving DecidableEq, Repr

inductive Res
  | ok
  | err (e : Err)
deriving DecidableEq, Repr

def State.householdExists (s : State) (hid : Nat) : Bool :=
  s.households.any (fun h => h.id == hid)

/-- Is there an association row for (uid, hid)?  Models the ORM membership
tests (`household in user.households` once the household is known to
exist) and the composite-primary-key lookup. -/
def State.pairExists (s : State) (uid hid : Nat) : Bool :=
  s.assocs.any (fun a => a.user_id == uid && a.household_id == hid)

/-- `user.households`: the households joined to the user through the
association table (inner join, as the SQLAlchemy secondary relationship). -/
def State.joinedHouseholds (s : State) (uid : Nat) : List Household :=
  s.households.filter (fun h => s.assocs.any (fun a => a.user_id == uid && a.household_id == h.id))

/-- `household.members`: the users joined to the household. -/
def State.members (s : State) (hid : Nat) : List User :=
  s.users.filter (fun u => s.assocs.any (fun a => a.user_id == u.id && a.household_id == hid))

def maxOfList (l : List Nat) : Nat := l.foldr max 0

/-- Autoincrement id for a new household row. -/
def State.freshHouseholdId (s : State) : Nat := maxOfList (s.households.map Household.id) + 1

/-- Autoincrement id for a new invitation row. -/
def State.freshInvitationId (s : State) : Nat := maxOfList (s.invitations.map Invitation.id) + 1

/-- Autoincrement id for a new user row. -/
def State.freshUserId (s : State) : Nat := maxOfList (s.users.map User.id) + 1

/-- Python `str.lower()` as the handlers use it on email addresses:
lower-case each character. -/
def lowerEmail (s : String) : String := ⟨s.data.map Char.toLower⟩

/-- `invitation.expires_at and invitation.expires_at < datetime.utcnow()`. -/
def invExpired (inv : Invitation) (now : Nat) : Bool :=
  match inv.expires_at with
  | some t => t < now
  | none => false

def State.addAssoc (s : State) (uid hid : Nat) (prim : Bool) : State :=
  { s with assocs := s.assocs ++ [⟨uid, hid, prim⟩] }

def State.setInvStatus (s : State) (iid : Nat) (st : InvitationStatus) : State :=
  { s with invitations :=
      s.invitations.map (fun i => if i.id == iid then { i with status := st } else i) }

/-- Status of the invitation row with id `i`, if present. -/
def invStatus (s : State) (i : Nat) : Option InvitationStatus :=
  (s.invitations.find? (fun inv => inv.id == i)).map Invitation.status

/-! ## Operations (request handlers) -/

/-- POST /register (src/main.py `register`) followed by `create_user`
(src/auth.py): password confirmation and strength checks, duplicate-email
check, then user creation with role admin iff the user table was empty. -/
def register (s : State) (name email password confirm : String) : State × Res :=
  if password != confirm then (s, .err .validation)
  else if password.length < 8 then (s, .err .validation)
  else if s.users.any (fun u => u.email == email) then (s, .err .conflict)
  else
    let is_first_user := s.users.length == 0
    let role := if is_first_user then UserRole.admin else UserRole.member
    ({ s with users := s.users ++ [⟨s.freshUserId, name, email, role⟩] }, .ok)

/-- POST /create_household (src/main.py `create_household`).  The household
row is committed first; the creator's membership is inserted afterwards,
primary iff the re-queried creator has no joined household. -/
def create_household (s : State) (admin : User) (household_name : String) : State × Res :=
  if s.households.any (fun h => h.name == household_name) then (s, .err .conflict)
  else
    let hid := s.freshHouseholdId
    let s1 : State := { s with households := s.households ++ [⟨hid, household_name⟩] }
    let is_first_household := (s1.joinedHouseholds admin.id).isEmpty
    if s1.pairExists admin.id hid then (s1, .err .internal)
    else (s1.addAssoc admin.id hid is_first_household, .ok)

/-- POST /delete_household (src/main.py `delete_household`): the acting
admin must belong to the household; food logs, invitations, associations
and the household row are all removed in one transaction. -/
def delete_household (s : State) (admin : User) (hid : Nat) : State × Res :=
  if ¬ s.householdExists hid then (s, .err .notFound)
  else if ¬ s.pairExists admin.id hid then (s, .err .forbidden)
  else
    ({ s with
        invitations := s.invitations.filter (fun i => i.household_id != hid),
        assocs := s.assocs.filter (fun a => a.household_id != hid),
        households := s.households.filter (fun h => h.id != hid) }, .ok)

/-- POST /add_member (src/main.py `add_member`): the handler performs no
household-existence check and the SQLite store never enforces the declared
foreign key, so a nonexistent `household_id` inserts a dangling
association row — flagged primary whenever the user's (joined) household
list is empty.  Only the composite primary key restrains the insert: a
duplicate (user, household) pair fails the request with nothing
persisted. -/
def add_member (s : State) (hid uid : Nat) : State × Res :=
  match s.users.find? (fun u => u.id == uid) with
  | none => (s, .err .notFound)
  | some _ =>
    if (s.joinedHouseholds uid).any (fun h => h.id == hid) then (s, .err .conflict)
    else
      let is_first := (s.joinedHouseholds uid).isEmpty
      if s.pairExists uid hid then (s, .err .internal)
      else (s.addAssoc uid hid is_first, .ok)

/-- Unset the first association of `uid` flagged primary (the
`existing_primary` query of `add_self_to_household`, a `first()` over the
rows in stored order). -/
def unsetFirstPrimary : List Assoc → Nat → List Assoc
  | [], _ => []
  | a :: rest, uid =>
    if a.user_id == uid && a.is_primary then { a with is_primary := false } :: rest
    else a :: unsetFirstPrimary rest uid

/-- POST /add_self_to_household (src/main.py `add_self_to_household`). -/
def add_self_to_household (s : State) (u : User) (hid : Nat) (set_as_primary : Bool) :
    State × Res :=
  if ¬ s.householdExists hid then (s, .err .notFound)
  else if s.pairExists u.id hid then (s, .err .conflict)
  else
    let prim := set_as_primary || (s.joinedHouseholds u.id).isEmpty
    let assocs1 := if set_as_primary then unsetFirstPrimary s.assocs u.id else s.assocs
    ({ s with assocs := assocs1 ++ [⟨u.id, hid, prim⟩] }, .ok)

/-- Result of POST /invite_member: the handler renders the invite code of
either the freshly created or the already-existing pending invitation. -/
inductive InviteRes
  | sent (code : String)
  | already (code : String)
  | err (e : Err)
deriving DecidableEq, Repr

def State.addInvitation (s : State) (hid : Nat) (email newCode : String) (now : Nat) : State :=
  { s with invitations := s.invitations ++
      [⟨s.freshInvitationId, email, newCode, hid, some (now + 7 * 24 * 60 * 60), .pending⟩] }

/-- POST /invite_member (src/main.py `invite_member`): household lookup,
self-invite rejection, idempotent return of an existing pending invitation
for (email, household), conflict when the invitee already has a household,
otherwise creation of a pending invitation with a 7-day expiry.  `newCode`
is the collaborator-generated unguessable code; the unique constraint on
`invite_code` rejects a clash. -/
def invite_member (s : State) (admin : User) (hid : Nat) (email newCode : String)
    (now : Nat) : State × InviteRes :=
  if ¬ s.householdExists hid then (s, .err .notFound)
  else if (lowerEmail admin.email) == (lowerEmail email) then (s, .err .forbidden)
  else
    match s.invitations.find? (fun i =>
        i.email == email && i.household_id == hid && i.status == .pending) with
    | some existing => (s, .already existing.invite_code)
    | none =>
      let doCreate : State × InviteRes :=
        if s.invitations.any (fun i => i.invite_code == newCode) then (s, .err .internal)
        else (s.addInvitation hid email newCode now, .sent newCode)
      match s.users.find? (fun u => u.email == email) with
      | some existing_user =>
        if ¬ (s.joinedHouseholds existing_user.id).isEmpty then (s, .err .conflict)
        else doCreate
      | none => doCreate

/-- GET /join_household?code=... (src/main.py `join_household`): accept an
invitation by code.  Pending lookup, expiry check, case-insensitive email
match; accepting is idempotent when the user is already a member. -/
def join_household (s : State) (u : User) (code : String) (now : Nat) : State × Res :=
  match s.invitations.find? (fun i => i.invite_code == code && i.status == .pending) with
  | none => (s, .err .notFound)
  | some inv =>
    if invExpired inv now then (s, .err .expired)
    else if (lowerEmail inv.email) != (lowerEmail u.email) then (s, .err .forbidden)
    else if s.pairExists u.id inv.household_id then
      (s.setInvStatus inv.id .accepted, .ok)
    else
      let is_first_household := (s.joinedHouseholds u.id).isEmpty
      ((s.addAssoc u.id inv.household_id is_first_household).setInvStatus inv.id .accepted, .ok)

/-- GET /accept-invite/invite_code (src/main.py `accept_invite`): the email
link.  A logged-out visitor is redirected (no mutation); a logged-in user
with matching email is joined without a prior already-member check, so the
composite primary key rejects the duplicate insert and the request fails
with nothing committed. -/
def accept_invite (s : State) (visitor : Option User) (code : String) (now : Nat) :
    State × Res :=
  match s.invitations.find? (fun i => i.invite_code == code && i.status == .pending) with
  | none => (s, .err .notFound)
  | some inv =>
    if invExpired inv now then (s, .err .expired)
    else
      match visitor with
      | none => (s, .ok)
      | some u =>
        if (lowerEmail u.email) == (lowerEmail inv.email) then
          let is_first := (s.joinedHouseholds u.id).isEmpty
          if s.pairExists u.id inv.household_id then (s, .err .internal)
          else ((s.addAssoc u.id inv.household_id is_first).setInvStatus inv.id .accepted, .ok)
        else (s, .err .forbidden)

/-- POST /accept_invitation (src/main.py `accept_invitation`): accept by
invitation id.  No expiry check appears in this handler.  A vanished
household marks the invitation rejected; an existing membership marks it
accepted; both commit before rendering an error page. -/
def accept_invitation (s : State) (u : User) (invitation_id : Nat) : State × Res :=
  match s.invitations.find? (fun i => i.id == invitation_id && i.status == .pending) with
  | none => (s, .err .notFound)
  | some inv =>
    if (lowerEmail inv.email) != (lowerEmail u.email) then (s, .err .forbidden)
    else if ¬ s.householdExists inv.household_id then
      (s.setInvStatus inv.id .rejected, .err .notFound)
    else if s.pairExists u.id inv.household_id then
      (s.setInvStatus inv.id .accepted, .err .conflict)
    else
      let is_first_household := (s.joinedHouseholds u.id).isEmpty
      ((s.addAssoc u.id inv.household_id is_first_household).setInvStatus inv.id .accepted, .ok)

/-- POST /reject_invitation (src/main.py `reject_invitation`): reject by
invitation id.  No expiry check appears in this handler. -/
def reject_invitation (s : State) (u : User) (invitation_id : Nat) : State × Res :=
  match s.invitations.find? (fun i => i.id == invitation_id && i.status == .pending) with
  | none => (s, .err .notFound)
  | some inv =>
    if (lowerEmail inv.email) != (lowerEmail u.email) then (s, .err .forbidden)
    else (s.setInvStatus inv.id .rejected, .ok)

/-- First bulk update of `set_primary_household`: clear the primary flag
of every association of the user. -/
def clearPrimary (uid : Nat) (a : Assoc) : Assoc :=
  if a.user_id == uid && a.is_primary then { a with is_primary := false } else a

/-- Second bulk update of `set_primary_household`: flag the association of
(uid, hid) primary. -/
def setPrimaryFor (uid hid : Nat) (a : Assoc) : Assoc :=
  if a.user_id == uid && a.household_id == hid then { a with is_primary := true } else a

/-- POST /set_primary_household (src/main.py `set_primary_household`): two
bulk updates, first clearing every primary flag of the user, then setting
the flag of the requested association. -/
def set_primary_household (s : State) (u : User) (hid : Nat) : State × Res :=
  if ¬ s.householdExists hid then (s, .err .notFound)
  else if ¬ s.pairExists u.id hid then (s, .err .notFound)
  else
    ({ s with assocs := (s.assocs.map (clearPrimary u.id)).map (setPrimaryFor u.id hid) }, .ok)

/-- Set the primary flag on the first association of `uid` in stored order
(the `other_association` query of `leave_household`). -/
def promoteFirst : List Assoc → Nat → List Assoc
  | [], _ => []
  | a :: rest, uid =>
    if a.user_id == uid then { a with is_primary := true } :: rest
    else a :: promoteFirst rest uid

/-- POST /leave_household (src/main.py `leave_household`).  The last-admin
guard runs first.  Because the session has autoflush disabled
(src/database.py), the promotion query still sees the association that is
pending deletion, so `promoteFirst` runs over the full table before the
row is erased; a promotion landing on the erased row is lost. -/
def leave_household (s : State) (u : User) (hid : Nat) : State × Res :=
  if ¬ s.householdExists hid then (s, .err .notFound)
  else if ¬ s.pairExists u.id hid then (s, .err .notFound)
  else
    let ms := s.members hid
    let other_admins := ms.filter (fun m => m.role == .admin && m.id != u.id)
    if u.role = .admin ∧ other_admins.length = 0 ∧ 1 < ms.length then
      (s, .err .invalidState)
    else
      match s.assocs.find? (fun a => a.user_id == u.id && a.household_id == hid) with
      | none => (s, .ok)
      | some assoc =>
        let was_primary := assoc.is_primary
        let assocs1 := if was_primary then promoteFirst s.assocs u.id else s.assocs
        ({ s with assocs :=
            assocs1.eraseP (fun a => a.user_id == u.id && a.household_id == hid) }, .ok)

/-- POST /update_user_role (src/main.py `update_user_role`). -/
def update_user_role (s : State) (admin : User) (uid : Nat) (role : UserRole) : State × Res :=
  if uid = admin.id then (s, .err .validation)
  else
    match s.users.find? (fun x => x.id == uid) with
    | none => (s, .err .notFound)
    | some _ =>
      ({ s with users := s.users.map (fun x => if x.id == uid then { x with role := role } else x) },
       .ok)

/-! ## Food logging and nutrition estimation -/

/-- The dict returned by `get_nutrition_from_openai` /
`get_nutrition_from_anthropic` (src/main.py): six numeric fields.
Gram/calorie values are embedded as rationals. -/
structure NutritionDict where
  calories : ℚ
  protein : ℚ
  carbohydrates : ℚ
  fiber : ℚ
  fat : ℚ
  sugar : ℚ
deriving DecidableEq, Repr

/-- Outcome of parsing the AI response body: `parsed d` when `json.loads`
and the `float(...)` coercions succeed (absent keys already defaulted to 0
by `nutrition.get(key, 0)`), `unparseable` when they raise. -/
inductive AIResponse
  | parsed (d : NutritionDict)
  | unparseable
deriving DecidableEq, Repr

def zeroNutrition : NutritionDict := ⟨0, 0, 0, 0, 0, 0⟩

/-- `get_nutrition_from_openai` (src/main.py lines 1282-1314): a missing
client or an unparseable response yields the all-zero dict.
(`get_nutrition_from_anthropic` is line-for-line the same logic.) -/
def get_nutrition_from_openai (clientAvailable : Bool) (resp : AIResponse) : NutritionDict :=
  if clientAvailable then
    match resp with
    | .parsed nutrition => nutrition
    | .unparseable => zeroNutrition
  else zeroNutrition

/-- A row of `food_logs` (src/models.py `FoodLog`): the nutrition columns
are nullable — the model's comment reads "None indicates no data
available" — hence `Option ℚ`. -/
structure FoodLog where
  user_id : Nat
  household_id : Nat
  food_name : String
  portion_size : String
  calorie_count : Option ℚ
  protein : Option ℚ
  carbohydrates : Option ℚ
  fiber : Option ℚ
  fat : Option ℚ
  sugar : Option ℚ
deriving DecidableEq, Repr

/-- The row POST /add_food (src/main.py `add_food`) inserts once the
authorization checks pass: every nutrition column is filled from the
estimation dict, so each column holds `some` value. -/
def add_food_row (uid hid : Nat) (food_name portion_size : String)
    (nutrition : NutritionDict) : FoodLog :=
  { user_id := uid
    household_id := hid
    food_name := food_name
    portion_size := portion_size
    calorie_count := some nutrition.calories
    protein := some nutrition.protein
    carbohydrates := some nutrition.carbohydrates
    fiber := some nutrition.fiber
    fat := some nutrition.fat
    sugar := some nutrition.sugar }

/-! ## The public interface as a transition system -/

/-- One request through the state-mutating public interface.  `User`-typed
arguments are the authenticated identity the presentation layer passes in;
`now` arguments are the clock reads of the handler; code arguments are the
collaborator-generated invite codes. -/
inductive Op
  | opRegister (name email password confirm : String)
  | opCreateHousehold (admin : User) (household_name : String)
  | opDeleteHousehold (admin : User) (hid : Nat)
  | opAddMember (hid uid : Nat)
  | opAddSelf (u : User) (hid : Nat) (set_as_primary : Bool)
  | opInvite (admin : User) (hid : Nat) (email newCode : String) (now : Nat)
  | opJoinByCode (u : User) (code : String) (now : Nat)
  | opAcceptLink (visitor : Option User) (code : String) (now : Nat)
  | opAcceptById (u : User) (invitation_id : Nat)
  | opRejectById (u : User) (invitation_id : Nat)
  | opSetPrimary (u : User) (hid : Nat)
  | opLeave (u : User) (hid : Nat)
  | opSetRole (admin : User) (uid : Nat) (role : UserRole)

/-- The state reached after one request (the response is dropped). -/
def step (op : Op) (s : State) : State :=
  match op with
  | .opRegister n e p c => (register s n e p c).1
  | .opCreateHousehold a nm => (create_household s a nm).1
  | .opDeleteHousehold a hid => (delete_household s a hid).1
  | .opAddMember hid uid => (add_member s hid uid).1
  | .opAddSelf u hid sp => (add_self_to_household s u hid sp).1
  | .opInvite a hid em code now => (invite_member s a hid em code now).1
  | .opJoinByCode u code now => (join_household s u code now).1
  | .opAcceptLink v code now => (accept_invite s v code now).1
  | .opAcceptById u iid => (accept_invitation s u iid).1
  | .opRejectById u iid => (reject_invitation s u iid).1
  | .opSetPrimary u hid => (set_primary_household s u hid).1
  | .opLeave u hid => (leave_household s u hid).1
  | .opSetRole a uid r => (update_user_role s a uid r).1

def run (l : List Op) (s : State) : State := l.foldl (fun s op => step op s) s

/-! ## Store well-formedness

The constraints SQLite actually enforces for this schema: the composite
primary key of the association table and the uniqueness of invitation
ids.  The declared foreign keys carry no conjunct here, because
src/database.py never enables SQLite foreign-key enforcement and dangling
association rows are therefore reachable through /add_member. -/

def pairKey (a : Assoc) : Nat × Nat := (a.user_id, a.household_id)

def WF (s : State) : Prop :=
  (s.assocs.map pairKey).Nodup ∧
  (s.invitations.map Invitation.id).Nodup

instance : DecidablePred WF := fun s => by unfold WF; infer_instance

/-- Number of memberships of `uid` flagged primary in an association list. -/
def countPrim (l : List Assoc) (uid : Nat) : Nat :=
  (l.filter (fun a => a.user_id == uid && a.is_primary)).length

/-- Number of memberships of `uid` flagged primary. -/
def primCount (s : State) (uid : Nat) : Nat := countPrim s.assocs uid

/-! ## Helper lemmas -/

theorem pairKeys_promoteFirst (l : List Assoc) (uid : Nat) :
    (promoteFirst l uid).map pairKey = l.map pairKey := by
  induction l with
  | nil => rfl
  | cons a t ih =>
    unfold promoteFirst
    split <;> simp [pairKey, ih]

/-! ## Invitation status transitions -/

theorem find?_append_left {α : Type} {p : α → Bool} {l1 l2 : List α} {a : α}
    (h : l1.find? p = some a) : (l1 ++ l2).find? p = some a := by
  induction l1 with
  | nil => cases h
  | cons b t ih =>
    by_cases hb : p b = true
    · rw [List.find?_cons_of_pos _ (by exact hb)] at h
      rw [List.cons_append, List.find?_cons_of_pos _ (by exact hb)]
      exact h
    · rw [List.find?_cons_of_neg _ (by exact hb)] at h
      rw [List.cons_append, List.find?_cons_of_neg _ (by exact hb)]
      exact ih h

theorem find?_id_of_mem_nodup {l : List Invitation} {inv : Invitation}
    (hnd : (l.map Invitation.id).Nodup) (hmem : inv ∈ l) :
    l.find? (fun x => x.id == inv.id) = some inv := by
  induction l with
  | nil => cases hmem
  | cons a t ih =>
    rw [List.map_cons, List.nodup_cons] at hnd
    rcases List.mem_cons.mp hmem with rfl | hmem'
    · exact List.find?_cons_of_pos _ (by simp)
    · have hne : ¬(a.id == inv.id) = true := by
        intro he
        rw [beq_iff_eq] at he
        exact hnd.1 (he ▸ List.mem_map_of_mem Invitation.id hmem')
      rw [List.find?_cons_of_neg _ (by exact hne)]
      exact ih hnd.2 hmem'

theorem eq_of_id_eq_nodup {l : List Invitation} {x y : Invitation}
    (hnd : (l.map Invitation.id).Nodup) (hx : x ∈ l) (hy : y ∈ l) (hid : x.id = y.id) :
    x = y := by
  have h1 := find?_id_of_mem_nodup hnd hx
  have h2 := find?_id_of_mem_nodup hnd hy
  rw [hid] at h1
  rw [h1] at h2
  exact Option.some_inj.mp h2

theorem find?_id_filter_eq {l : List Invitation} {q : Invitation → Bool} {i : Nat}
    {x : Invitation} (hnd : (l.map Invitation.id).Nodup)
    (hx : (l.filter q).find? (fun inv => inv.id == i) = some x) :
    l.find? (fun inv => inv.id == i) = some x := by
  have hxmem : x ∈ l.filter q := List.mem_of_find?_eq_some hx
  have hxl : x ∈ l := (List.filter_sublist l).subset hxmem
  have hxp := List.find?_some hx
  have hxi : x.id = i := by simpa using hxp
  subst hxi
  exact find?_id_of_mem_nodup hnd hxl

theorem find?_id_map_setInv (l : List Invitation) (iid : Nat) (st0 : InvitationStatus)
    (i : Nat) :
    (l.map (fun inv => if inv.id == iid then { inv with status := st0 } else inv)).find?
        (fun inv => inv.id == i) =
      (l.find? (fun inv => inv.id == i)).map
        (fun inv => if inv.id == iid then { inv with status := st0 } else inv) := by
  induction l with
  | nil => rfl
  | cons a t ih =>
    simp only [List.map_cons]
    by_cases ha : (a.id == i) = true
    · have hga : ((if a.id == iid then { a with status := st0 } else a).id == i) = true := by
        split <;> simpa using ha
      rw [List.find?_cons_of_pos _ (by exact hga), List.find?_cons_of_pos _ (by exact ha)]
      rfl
    · have hga : ¬((if a.id == iid then { a with status := st0 } else a).id == i) = true := by
        split <;> simpa using ha
      rw [List.find?_cons_of_neg _ (by exact hga), List.find?_cons_of_neg _ (by exact ha), ih]

/-- How one request can change the invitations table: not at all, deleting
rows (household deletion), appending a fresh pending row (invite), or
rewriting the status of one row that was pending. -/
inductive InvEffect (s s' : State) : Prop
  | same (h : s'.invitations = s.invitations)
  | filtered (q : Invitation → Bool) (h : s'.invitations = s.invitations.filter q)
  | appended (new : Invitation) (hst : new.status = .pending)
      (h : s'.invitations = s.invitations ++ [new])
  | updated (inv : Invitation) (st0 : InvitationStatus)
      (hmem : inv ∈ s.invitations) (hpend : inv.status = .pending)
      (h : s'.invitations = s.invitations.map
        (fun i => if i.id == inv.id then { i with status := st0 } else i))

/-- Pending status of a row located by a pending-filtered lookup. -/
theorem status_pending_of_find_pending {l : List Invitation} {p : Invitation → Bool}
    {inv : Invitation}
    (hsub : ∀ x, p x = true → (x.status == InvitationStatus.pending) = true)
    (hf : l.find? p = some inv) : inv.status = .pending := by
  have := List.find?_some hf
  have := hsub inv this
  simpa using this

theorem step_invEffect (op : Op) (s : State) : InvEffect s (step op s) := by
  cases op with
  | opRegister n e p c =>
    refine .same ?_
    show (register s n e p c).1.invitations = s.invitations
    unfold register
    split_ifs <;> rfl
  | opCreateHousehold a nm =>
    refine .same ?_
    show (create_household s a nm).1.invitations = s.invitations
    unfold create_household
    dsimp only
    split_ifs <;> rfl
  | opDeleteHousehold a hid =>
    show InvEffect s (delete_household s a hid).1
    unfold delete_household
    split_ifs <;>
      first
        | exact .same rfl
        | exact .filtered (fun i => i.household_id != hid) rfl
  | opAddMember hid uid0 =>
    refine .same ?_
    show (add_member s hid uid0).1.invitations = s.invitations
    unfold add_member
    cases s.users.find? (fun u => u.id == uid0)
    · rfl
    · dsimp only
      split_ifs <;> rfl
  | opAddSelf u hid sp =>
    refine .same ?_
    show (add_self_to_household s u hid sp).1.invitations = s.invitations
    unfold add_self_to_household
    dsimp only
    split_ifs <;> rfl
  | opInvite a hid em code now =>
    show InvEffect s (invite_member s a hid em code now).1
    unfold invite_member
    by_cases h1 : s.householdExists hid = true
    · rw [if_neg (not_not_intro h1)]
      by_cases h2 : ((lowerEmail a.email) == (lowerEmail em)) = true
      · rw [if_pos h2]; exact .same rfl
      · rw [if_neg h2]
        cases hf : s.invitations.find? (fun i =>
            i.email == em && i.household_id == hid && i.status == InvitationStatus.pending) with
        | some ex => exact .same rfl
        | none =>
          dsimp only
          cases hfu : s.users.find? (fun x => x.email == em) with
          | some w =>
            dsimp only
            by_cases h3 : (s.joinedHouseholds w.id).isEmpty = true
            · rw [if_neg (not_not_intro h3)]
              by_cases h4 : (s.invitations.any fun i => i.invite_code == code) = true
              · rw [if_pos h4]; exact .same rfl
              · rw [if_neg h4]; exact .appended _ rfl rfl
            · rw [if_pos h3]; exact .same rfl
          | none =>
            dsimp only
            by_cases h4 : (s.invitations.any fun i => i.invite_code == code) = true
            · rw [if_pos h4]; exact .same rfl
            · rw [if_neg h4]; exact .appended _ rfl rfl
    · rw [if_pos h1]; exact .same rfl
  | opJoinByCode u code now =>
    show InvEffect s (join_household s u code now).1
    unfold join_household
    cases hf : s.invitations.find? (fun i =>
        i.invite_code == code && i.status == InvitationStatus.pending) with
    | none => exact .same rfl
    | some inv =>
      have hmem : inv ∈ s.invitations := List.mem_of_find?_eq_some hf
      have hpend : inv.status = .pending :=
        status_pending_of_find_pending (fun x hx => (Bool.and_eq_true .. ▸ hx).2) hf
      dsimp only
      split_ifs <;>
        first
          | exact .same rfl
          | exact .updated inv .accepted hmem hpend rfl
  | opAcceptLink v code now =>
    show InvEffect s (accept_invite s v code now).1
    unfold accept_invite
    cases hf : s.invitations.find? (fun i =>
        i.invite_code == code && i.status == InvitationStatus.pending) with
    | none => exact .same rfl
    | some inv =>
      have hmem : inv ∈ s.invitations := List.mem_of_find?_eq_some hf
      have hpend : inv.status = .pending :=
        status_pending_of_find_pending (fun x hx => (Bool.and_eq_true .. ▸ hx).2) hf
      dsimp only
      by_cases h1 : invExpired inv now = true
      · rw [if_pos h1]; exact .same rfl
      · rw [if_neg h1]
        cases v with
        | none => exact .same rfl
        | some u =>
          dsimp only
          split_ifs <;>
            first
              | exact .same rfl
              | exact .updated inv .accepted hmem hpend rfl
  | opAcceptById u iid =>
    show InvEffect s (accept_invitation s u iid).1
    unfold accept_invitation
    cases hf : s.invitations.find? (fun i =>
        i.id == iid && i.status == InvitationStatus.pending) with
    | none => exact .same rfl
    | some inv =>
      have hmem : inv ∈ s.invitations := List.mem_of_find?_eq_some hf
      have hpend : inv.status = .pending :=
        status_pending_of_find_pending (fun x hx => (Bool.and_eq_true .. ▸ hx).2) hf
      dsimp only
      split_ifs <;>
        first
          | exact .same rfl
          | exact .updated inv .accepted hmem hpend rfl
          | exact .updated inv .rejected hmem hpend rfl
  | opRejectById u iid =>
    show InvEffect s (reject_invitation s u iid).1
    unfold reject_invitation
    cases hf : s.invitations.find? (fun i =>
        i.id == iid && i.status == InvitationStatus.pending) with
    | none => exact .same rfl
    | some inv =>
      have hmem : inv ∈ s.invitations := List.mem_of_find?_eq_some hf
      have hpend : inv.status = .pending :=
        status_pending_of_find_pending (fun x hx => (Bool.and_eq_true .. ▸ hx).2) hf
      dsimp only
      split_ifs <;>
        first
          | exact .same rfl
          | exact .updated inv .rejected hmem hpend rfl
  | opSetPrimary u hid =>
    refine .same ?_
    show (set_primary_household s u hid).1.invitations = s.invitations
    unfold set_primary_household
    split_ifs <;> rfl
  | opLeave u hid =>
    refine .same ?_
    show (leave_household s u hid).1.invitations = s.invitations
    unfold leave_household
    dsimp only
    split_ifs <;> try rfl
    cases s.assocs.find? (fun a => a.user_id == u.id && a.household_id == hid) <;> rfl
  | opSetRole a uid0 r =>
    refine .same ?_
    show (update_user_role s a uid0 r).1.invitations = s.invitations
    unfold update_user_role
    split_ifs <;> try rfl
    cases s.users.find? (fun x => x.id == uid0) <;> rfl

theorem invStatus_step_le (op : Op) (s : State) (i : Nat)
    (hnd : (s.invitations.map Invitation.id).Nodup)
    {st st' : InvitationStatus}
    (hb : invStatus s i = some st) (ha : invStatus (step op s) i = some st') :
    st = st' ∨ st = .pending := by
  rcases step_invEffect op s with ⟨hsame⟩ | ⟨q, hfil⟩ | ⟨new, hst, happ⟩ |
    ⟨inv, st0, hmem, hpend, hupd⟩
  · unfold invStatus at hb ha
    rw [hsame, hb] at ha
    exact Or.inl (Option.some_inj.mp ha)
  · unfold invStatus at hb ha
    rw [hfil] at ha
    rcases Option.map_eq_some'.mp ha with ⟨x, hx, hxst⟩
    rw [find?_id_filter_eq hnd hx] at hb
    left
    rw [Option.map_some'] at hb
    rw [← Option.some_inj.mp hb, hxst]
  · unfold invStatus at hb ha
    rw [happ] at ha
    rcases Option.map_eq_some'.mp hb with ⟨y, hy, hyst⟩
    rw [find?_append_left hy, Option.map_some'] at ha
    left
    rw [← hyst, Option.some_inj.mp ha]
  · unfold invStatus at hb ha
    rw [hupd, find?_id_map_setInv] at ha
    rcases Option.map_eq_some'.mp hb with ⟨y, hy, hyst⟩
    rw [hy, Option.map_some', Option.map_some'] at ha
    by_cases hyi : (y.id == inv.id) = true
    · right
      have hyinv : y = inv :=
        eq_of_id_eq_nodup hnd (List.mem_of_find?_eq_some hy) hmem (by simpa using hyi)
      rw [← hyst, hyinv, hpend]
    · left
      rw [if_neg hyi] at ha
      rw [← hyst, Option.some_inj.mp ha]

/-! ## Further helpers for the claim theorems -/

theorem joined_nil_of_no_assoc {s : State} {uid : Nat}
    (h : ∀ a ∈ s.assocs, a.user_id ≠ uid) : s.joinedHouseholds uid = [] := by
  unfold State.joinedHouseholds
  rw [List.filter_eq_nil_iff]
  intro hh _
  rw [Bool.not_eq_true, List.any_eq_false]
  intro a ha
  simp [h a ha]

theorem pairExists_false_of_no_assoc {s : State} {uid : Nat} (hid : Nat)
    (h : ∀ a ∈ s.assocs, a.user_id ≠ uid) : s.pairExists uid hid = false := by
  unfold State.pairExists
  rw [List.any_eq_false]
  intro a ha
  simp [h a ha]

theorem one_lt_length_of_two_mem {α : Type} {l : List α} {x y : α}
    (hx : x ∈ l) (hy : y ∈ l) (hxy : x ≠ y) : 1 < l.length := by
  cases l with
  | nil => cases hx
  | cons a t =>
    cases t with
    | nil =>
      rw [List.mem_singleton] at hx hy
      exact absurd (hx.trans hy.symm) hxy
    | cons b t2 =>
      simp only [List.length_cons]
      omega

/-- Under the composite primary key, erasing the (uid, hid) row removes
every (uid, hid) row. -/
theorem any_pair_erase_self {l : List Assoc} {uid hid : Nat}
    (hnd : (l.map pairKey).Nodup) :
    (l.eraseP (fun a => a.user_id == uid && a.household_id == hid)).any
      (fun a => a.user_id == uid && a.household_id == hid) = false := by
  induction l with
  | nil => rfl
  | cons b t ih =>
    rw [List.map_cons, List.nodup_cons] at hnd
    by_cases hb : (b.user_id == uid && b.household_id == hid) = true
    · rw [List.eraseP_cons_of_pos (by exact hb)]
      rw [List.any_eq_false]
      intro a ha hpa
      apply hnd.1
      have h1 : pairKey b = (uid, hid) := by
        rw [Bool.and_eq_true, beq_iff_eq, beq_iff_eq] at hb
        simp [pairKey, hb.1, hb.2]
      have h2 : pairKey a = (uid, hid) := by
        rw [Bool.and_eq_true, beq_iff_eq, beq_iff_eq] at hpa
        simp [pairKey, hpa.1, hpa.2]
      rw [h1, ← h2]
      exact List.mem_map_of_mem pairKey ha
    · rw [List.eraseP_cons_of_neg (by exact hb)]
      rw [List.any_cons, ih hnd.2]
      simpa using hb

/-! ## The claims -/

def c1_user : User := ⟨1, "bea", "b@x", .member⟩
def c1_invitation : Invitation := ⟨5, "b@x", "k5", 1, some 10, .pending⟩
def c1_state : State := ⟨[c1_user], [⟨1, "home"⟩], [], [c1_invitation]⟩

/-- C1 (counterexample): the claim says resolving an expired invitation
fails with Expired for accept-by-id as well; on a concrete state holding a
pending invitation whose `expires_at` (10) is in the past (now = 20),
`accept_invitation` — which contains no expiry check — succeeds, marks the
invitation accepted and creates the membership. -/
theorem accept_by_id_ignores_expiry :
    invExpired c1_invitation 20 = true ∧
    accept_invitation c1_state c1_user 5 ≠ (c1_state, .err .expired) ∧
    (accept_invitation c1_state c1_user 5).2 = .ok ∧
    invStatus (accept_invitation c1_state c1_user 5).1 5 = some .accepted ∧
    (accept_invitation c1_state c1_user 5).1.pairExists 1 1 = true := by decide

/-- C1 (amended): for every invitation whose `expires_at` is in the past,
resolving it by invite code (the /join_household and /accept-invite
handlers) fails with Expired and leaves the whole store — invitation
status and memberships included — unchanged; the by-id handlers perform no
expiry check. -/
theorem resolve_by_code_expired_fails (s : State) (u : User) (code : String)
    (now t : Nat) (inv : Invitation)
    (hf : s.invitations.find? (fun i =>
      i.invite_code == code && i.status == InvitationStatus.pending) = some inv)
    (hexp : inv.expires_at = some t) (hlt : t < now) :
    join_household s u code now = (s, .err .expired) ∧
    accept_invite s (some u) code now = (s, .err .expired) := by
  have hx : invExpired inv now = true := by simp [invExpired, hexp, hlt]
  constructor
  · unfold join_household
    rw [hf]
    dsimp only
    rw [if_pos hx]
  · unfold accept_invite
    rw [hf]
    dsimp only
    rw [if_pos hx]

theorem resolve_by_code_expired_fails_witness :
    join_household c1_state c1_user "k5" 20 = (c1_state, .err .expired) ∧
    accept_invite c1_state (some c1_user) "k5" 20 = (c1_state, .err .expired) :=
  resolve_by_code_expired_fails c1_state c1_user "k5" 20 10 c1_invitation
    (by decide) (by decide) (by decide)

/-- C2 (divergence witness): when the nutrition collaborator is
unavailable (no client) or its response is unparseable,
`get_nutrition_from_openai` returns the all-zero dict and `add_food`
stores it verbatim: every nutrition column of the recorded row holds
`some 0`, never the absent value `none` that the claim (and the FoodLog
model's own "None indicates no data available" comment) requires. -/
theorem add_food_unavailable_stores_zero :
    get_nutrition_from_openai false .unparseable = zeroNutrition ∧
    get_nutrition_from_openai true .unparseable = zeroNutrition ∧
    (add_food_row 1 1 "apple" "1 medium"
      (get_nutrition_from_openai false .unparseable)).protein = some 0 ∧
    (add_food_row 1 1 "apple" "1 medium"
      (get_nutrition_from_openai false .unparseable)).protein ≠ none ∧
    add_food_row 1 1 "apple" "1 medium" (get_nutrition_from_openai false .unparseable) =
      { user_id := 1, household_id := 1, food_name := "apple", portion_size := "1 medium",
        calorie_count := some 0, protein := some 0, carbohydrates := some 0,
        fiber := some 0, fat := some 0, sugar := some 0 } :=
  ⟨rfl, rfl, rfl, Option.some_ne_none 0, rfl⟩

def c3_user : User := ⟨1, "ann", "a@x", .member⟩
def c3_state : State := ⟨[c3_user], [⟨1, "h1"⟩], [], []⟩
def c3_ops : List Op := [.opAddMember 999 1, .opAddMember 1 1]

/-- C3 (divergence witness): the at-most-one-primary invariant is NOT
preserved by the public interface.  From a clean state (one user, one
household, no memberships — zero primary rows), two /add_member requests
falsify it: the first names household id 999, which does not exist, and —
the handler checking nothing and SQLite foreign keys being unenforced —
inserts a dangling row with `is_primary = true` (the user's joined
household list is empty); the second names the real household 1, and since
the dangling row joins to no household the list is *still* empty, so a
second `is_primary = true` row is inserted.  The user ends with two
primary memberships. -/
theorem add_member_dangling_two_primaries :
    WF c3_state ∧ primCount c3_state 1 ≤ 1 ∧
    (add_member c3_state 999 1).2 = .ok ∧
    (run c3_ops c3_state).assocs = [⟨1, 999, true⟩, ⟨1, 1, true⟩] ∧
    primCount (run c3_ops c3_state) 1 = 2 := by decide

/-- C4: for a user with zero membership rows, each membership-creating
operation — household creation by the user, an admin adding the user,
acceptance by code, acceptance by id — creates the membership with
`is_primary = true` (each conjunct states the full resulting store). -/
theorem first_membership_is_primary (s : State) (uid : Nat)
    (hnone : ∀ a ∈ s.assocs, a.user_id ≠ uid) :
    (∀ admin nm, admin.id = uid →
      ¬ (s.households.any fun h => h.name == nm) = true →
      create_household s admin nm =
        ({ s with households := s.households ++ [⟨s.freshHouseholdId, nm⟩],
                  assocs := s.assocs ++ [⟨uid, s.freshHouseholdId, true⟩] }, .ok)) ∧
    (∀ hid w, s.users.find? (fun x => x.id == uid) = some w →
      s.householdExists hid = true →
      add_member s hid uid = ({ s with assocs := s.assocs ++ [⟨uid, hid, true⟩] }, .ok)) ∧
    (∀ u code now inv, u.id = uid →
      s.invitations.find? (fun i =>
        i.invite_code == code && i.status == InvitationStatus.pending) = some inv →
      invExpired inv now = false →
      lowerEmail inv.email = lowerEmail u.email →
      s.householdExists inv.household_id = true →
      join_household s u code now =
        ((s.addAssoc uid inv.household_id true).setInvStatus inv.id .accepted, .ok)) ∧
    (∀ u iid inv, u.id = uid →
      s.invitations.find? (fun i =>
        i.id == iid && i.status == InvitationStatus.pending) = some inv →
      lowerEmail inv.email = lowerEmail u.email →
      s.householdExists inv.household_id = true →
      accept_invitation s u iid =
        ((s.addAssoc uid inv.household_id true).setInvStatus inv.id .accepted, .ok)) := by
  refine ⟨?_, ?_, ?_, ?_⟩
  · intro admin nm hida hconf
    subst hida
    unfold create_household
    rw [if_neg hconf]
    dsimp only
    rw [if_neg (by
      have h0 : s.pairExists admin.id s.freshHouseholdId = false :=
        pairExists_false_of_no_assoc s.freshHouseholdId hnone
      unfold State.pairExists at h0 ⊢
      simpa using h0)]
    have hj : State.joinedHouseholds
        { s with households := s.households ++ [⟨s.freshHouseholdId, nm⟩] } admin.id = [] :=
      joined_nil_of_no_assoc hnone
    rw [hj]
    rfl
  · intro hid w hfw hhex
    unfold add_member
    rw [hfw]
    dsimp only
    have hj : s.joinedHouseholds uid = [] := joined_nil_of_no_assoc hnone
    rw [if_neg (by simp [hj]),
      if_neg (by simp [pairExists_false_of_no_assoc hid hnone]), hj]
    rfl
  · intro u code now inv hidu hf hexp hmail hhex
    subst hidu
    unfold join_household
    rw [hf]
    dsimp only
    rw [if_neg (by simp [hexp]), if_neg (by simp [hmail]),
      if_neg (by simp [pairExists_false_of_no_assoc inv.household_id hnone]),
      joined_nil_of_no_assoc hnone]
    rfl
  · intro u iid inv hidu hf hmail hhex
    subst hidu
    unfold accept_invitation
    rw [hf]
    dsimp only
    rw [if_neg (by simp [hmail]), if_neg (not_not_intro hhex),
      if_neg (by simp [pairExists_false_of_no_assoc inv.household_id hnone]),
      joined_nil_of_no_assoc hnone]
    rfl

def c4_user : User := ⟨3, "cal", "c@x", .member⟩
def c4_state : State := ⟨[c4_user], [⟨1, "h"⟩], [], []⟩

theorem first_membership_is_primary_witness :
    add_member c4_state 1 3 = ({ c4_state with assocs := [⟨3, 1, true⟩] }, .ok) :=
  (first_membership_is_primary c4_state 3 (by decide)).2.1 1 c4_user (by decide) (by decide)

def c5_user : User := ⟨1, "cay", "c@x", .member⟩
def c5_state : State :=
  ⟨[c5_user], [⟨1, "h1"⟩, ⟨2, "h2"⟩], [⟨1, 1, true⟩, ⟨1, 2, false⟩], []⟩

/-- C5 (divergence witness): a member whose primary membership (household
1) is the first of their association rows also belongs to household 2.
Leaving household 1 succeeds and deletes the row, but — because the
session has autoflush disabled — the promotion query returns the very row
pending deletion, so its promotion is discarded at flush and the user is
left with zero primary memberships instead of exactly one. -/
theorem leave_primary_can_lose_promotion :
    (leave_household c5_state c5_user 1).2 = .ok ∧
    (leave_household c5_state c5_user 1).1.assocs = [⟨1, 2, false⟩] ∧
    primCount (leave_household c5_state c5_user 1).1 1 = 0 := by decide

/-- C6: an admin's attempt to leave a household fails with InvalidState —
leaving the store untouched — when another member exists and no other
member is an admin; when the admin is the household's only member, leaving
succeeds and the membership row is deleted. -/
theorem last_admin_leave_guard (s : State) (u : User) (hid : Nat)
    (hwf : WF s) (hu : u ∈ s.users) (hmem : s.pairExists u.id hid = true)
    (hh : s.householdExists hid = true) (hadmin : u.role = .admin) :
    ((∃ m ∈ s.members hid, m.id ≠ u.id) →
      (∀ m ∈ s.members hid, m.role = .admin → m.id = u.id) →
      leave_household s u hid = (s, .err .invalidState)) ∧
    ((s.members hid).length = 1 →
      (leave_household s u hid).2 = .ok ∧
      (leave_household s u hid).1.pairExists u.id hid = false) := by
  have humem : u ∈ s.members hid := List.mem_filter.mpr ⟨hu, hmem⟩
  constructor
  · rintro ⟨m, hm, hmne⟩ hnoadm
    have hlen : 1 < (s.members hid).length :=
      one_lt_length_of_two_mem hm humem fun he => hmne (congrArg User.id he)
    have hfz : ((s.members hid).filter fun m =>
        m.role == UserRole.admin && m.id != u.id).length = 0 := by
      rw [List.length_eq_zero, List.filter_eq_nil_iff]
      intro x hx
      by_cases hr : x.role = UserRole.admin
      · have hxe := hnoadm x hx hr
        simp [hxe]
      · simp [hr]
    unfold leave_household
    rw [if_neg (not_not_intro hh), if_neg (not_not_intro hmem)]
    dsimp only
    rw [if_pos ⟨hadmin, hfz, hlen⟩]
  · intro hlen1
    have hguard : ¬(u.role = UserRole.admin ∧
        ((s.members hid).filter fun m =>
          m.role == UserRole.admin && m.id != u.id).length = 0 ∧
        1 < (s.members hid).length) := by
      rintro ⟨-, -, hlt⟩
      omega
    unfold leave_household
    rw [if_neg (not_not_intro hh), if_neg (not_not_intro hmem)]
    dsimp only
    rw [if_neg hguard]
    cases hfa : s.assocs.find? (fun a => a.user_id == u.id && a.household_id == hid) with
    | none =>
      exfalso
      rcases List.any_eq_true.mp hmem with ⟨a, ha, hpa⟩
      exact List.find?_eq_none.mp hfa a ha hpa
    | some assoc =>
      dsimp only
      refine ⟨rfl, ?_⟩
      show State.pairExists _ u.id hid = false
      unfold State.pairExists
      dsimp only
      cases hwp : assoc.is_primary with
      | false =>
        rw [if_neg (by simp)]
        exact any_pair_erase_self hwf.1
      | true =>
        rw [if_pos rfl]
        refine any_pair_erase_self ?_
        rw [pairKeys_promoteFirst]
        exact hwf.1

def c6_admin : User := ⟨1, "ada", "a@x", .admin⟩
def c6_member : User := ⟨2, "mel", "m@x", .member⟩
def c6_state : State :=
  ⟨[c6_admin, c6_member], [⟨1, "h1"⟩], [⟨1, 1, true⟩, ⟨2, 1, true⟩], []⟩

theorem last_admin_leave_guard_witness :
    leave_household c6_state c6_admin 1 = (c6_state, .err .invalidState) :=
  (last_admin_leave_guard c6_state c6_admin 1 (by decide) (by decide) (by decide)
    (by decide) (by decide)).1 ⟨c6_member, by decide, by decide⟩ (by decide)

/-- C7: across every request of the public interface, the stored status of
an invitation present before and after the request either stays the same
or moves away from pending — so the only transitions are pending→accepted
and pending→rejected, and an accepted or rejected invitation is never
changed again (in particular a rejected one can never become accepted).
Iterating this over each step covers every request sequence for the
lifetime of the invitation row. -/
theorem invitation_status_monotone (op : Op) (s : State) (i : Nat)
    (hwf : WF s) {st st' : InvitationStatus}
    (hb : invStatus s i = some st) (ha : invStatus (step op s) i = some st') :
    st = st' ∨ st = .pending :=
  invStatus_step_le op s i hwf.2 hb ha

def c7_user : User := ⟨1, "dee", "d@x", .member⟩
def c7_invitation : Invitation := ⟨3, "d@x", "k3", 1, none, .pending⟩
def c7_state : State := ⟨[c7_user], [⟨1, "h"⟩], [], [c7_invitation]⟩

theorem invitation_status_monotone_witness :
    invStatus c7_state 3 = some .pending ∧
    invStatus (step (.opRejectById c7_user 3) c7_state) 3 = some .rejected ∧
    (InvitationStatus.pending = .rejected ∨ InvitationStatus.pending = .pending) :=
  ⟨by decide, by decide,
    invitation_status_monotone (.opRejectById c7_user 3) c7_state 3 (by decide)
      (by decide) (by decide)⟩

/-- C8: when a pending invitation for (email, household) already exists,
inviting the same email to the same household again returns that existing
invitation — same invite code — and leaves the store unchanged, creating
no new invitation. -/
theorem invite_pending_idempotent (s : State) (admin : User) (hid : Nat)
    (em newCode : String) (now : Nat) (inv : Invitation)
    (hh : s.householdExists hid = true)
    (hself : lowerEmail admin.email ≠ lowerEmail em)
    (hf : s.invitations.find? (fun i =>
      i.email == em && i.household_id == hid &&
        i.status == InvitationStatus.pending) = some inv) :
    invite_member s admin hid em newCode now = (s, .already inv.invite_code) := by
  unfold invite_member
  rw [if_neg (not_not_intro hh), if_neg (by simp [hself]), hf]

def c8_admin : User := ⟨1, "ada", "a@x", .admin⟩
def c8_invitation : Invitation := ⟨4, "e@x", "k4", 1, some 700, .pending⟩
def c8_state : State := ⟨[c8_admin], [⟨1, "h"⟩], [⟨1, 1, true⟩], [c8_invitation]⟩

theorem invite_pending_idempotent_witness :
    invite_member c8_state c8_admin 1 "e@x" "fresh-code" 900 =
      (c8_state, .already "k4") :=
  invite_pending_idempotent c8_state c8_admin 1 "e@x" "fresh-code" 900 c8_invitation
    (by decide) (by decide) (by decide)

/-- C9: resolving a pending, unexpired invitation whose target email does
not match the acting user's email under case-insensitive comparison fails
with Forbidden and leaves the store unchanged — for acceptance by code,
acceptance by id, and rejection by id alike. -/
theorem resolve_email_mismatch_forbidden (s : State) (u : User) (now : Nat) :
    (∀ code inv, s.invitations.find? (fun i =>
        i.invite_code == code && i.status == InvitationStatus.pending) = some inv →
      invExpired inv now = false →
      lowerEmail inv.email ≠ lowerEmail u.email →
      join_household s u code now = (s, .err .forbidden)) ∧
    (∀ iid inv, s.invitations.find? (fun i =>
        i.id == iid && i.status == InvitationStatus.pending) = some inv →
      invExpired inv now = false →
      lowerEmail inv.email ≠ lowerEmail u.email →
      accept_invitation s u iid = (s, .err .forbidden)) ∧
    (∀ iid inv, s.invitations.find? (fun i =>
        i.id == iid && i.status == InvitationStatus.pending) = some inv →
      invExpired inv now = false →
      lowerEmail inv.email ≠ lowerEmail u.email →
      reject_invitation s u iid = (s, .err .forbidden)) := by
  refine ⟨?_, ?_, ?_⟩
  · intro code inv hf hexp hne
    unfold join_household
    rw [hf]
    dsimp only
    rw [if_neg (by simp [hexp]), if_pos (by simp [hne])]
  · intro iid inv hf _ hne
    unfold accept_invitation
    rw [hf]
    dsimp only
    rw [if_pos (by simp [hne])]
  · intro iid inv hf _ hne
    unfold reject_invitation
    rw [hf]
    dsimp only
    rw [if_pos (by simp [hne])]

def c9_user : User := ⟨1, "eve", "e@x", .member⟩
def c9_invitation : Invitation := ⟨6, "f@x", "k6", 1, some 700, .pending⟩
def c9_state : State := ⟨[c9_user], [⟨1, "h"⟩], [], [c9_invitation]⟩

theorem resolve_email_mismatch_forbidden_witness :
    join_household c9_state c9_user "k6" 100 = (c9_state, .err .forbidden) ∧
    accept_invitation c9_state c9_user 6 = (c9_state, .err .forbidden) ∧
    reject_invitation c9_state c9_user 6 = (c9_state, .err .forbidden) :=
  ⟨(resolve_email_mismatch_forbidden c9_state c9_user 100).1 "k6" c9_invitation
      (by decide) (by decide) (by decide),
   (resolve_email_mismatch_forbidden c9_state c9_user 100).2.1 6 c9_invitation
      (by decide) (by decide) (by decide),
   (resolve_email_mismatch_forbidden c9_state c9_user 100).2.2 6 c9_invitation
      (by decide) (by decide) (by decide)⟩

/-- C10: a successful registration creates the user with role admin when
the user table was empty, and with role member whenever at least one user
already exists. -/
theorem register_first_user_admin (s : State) (n em pw : String)
    (hlen : 8 ≤ pw.length) (hnew : ¬ (s.users.any fun u => u.email == em) = true) :
    (s.users = [] →
      register s n em pw pw = ({ s with users := [⟨1, n, em, .admin⟩] }, .ok)) ∧
    (s.users ≠ [] →
      register s n em pw pw =
        ({ s with users := s.users ++ [⟨s.freshUserId, n, em, .member⟩] }, .ok)) := by
  have hpc : ¬ (pw != pw) = true := by simp
  have hpl : ¬ pw.length < 8 := by omega
  constructor
  · intro hemp
    unfold register
    rw [if_neg hpc, if_neg hpl, if_neg hnew]
    dsimp only
    have h1 : (s.users.length == 0) = true := by simp [hemp]
    rw [h1]
    have h2 : s.freshUserId = 1 := by
      unfold State.freshUserId
      rw [hemp]
      rfl
    rw [h2, hemp]
    rfl
  · intro hne2
    unfold register
    rw [if_neg hpc, if_neg hpl, if_neg hnew]
    dsimp only
    have h1 : (s.users.length == 0) = false := by
      simp [List.length_eq_zero, hne2]
    rw [h1]
    rfl

theorem register_first_user_admin_witness :
    register ⟨[], [], [], []⟩ "ann" "a@x" "password" "password" =
      (⟨[⟨1, "ann", "a@x", .admin⟩], [], [], []⟩, .ok) :=
  (register_first_user_admin ⟨[], [], [], []⟩ "ann" "a@x" "password" (by decide)
    (by decide)).1 rfl
